import Mathlib

/-!
Verification of the hierarchical multi-stage comment classifier
(`classifier.draft_classifier`): a shallow embedding in Lean 4 of the
orchestrator (`orchestrator.py`), the taxonomy navigator
(`hierarchy_navigator.py`), the dynamic schema generator
(`dynamic_schema.py`) and the prompt loader's filename derivation
(`prompt_loader.py`), together with theorems settling the spec's claims
about them.

Python dictionaries are modelled as association lists with insert-or-
overwrite semantics (`dinsert` / `dlook`), Python sets as `Finset String`,
and the external collaborators (generation engine, prompt templates on
disk) as function-valued parameters of a `ClassifierEnv`.
-/

namespace RAC

/-! ## Python-dict association lists -/

/-- Python `d[k] = v`: overwrite the value in place when the key is
present (keeping its position, as CPython dicts do), else append. -/
def dinsert {K V : Type} [DecidableEq K] (k : K) (v : V) :
    List (K × V) → List (K × V)
  | [] => [(k, v)]
  | (k', v') :: rest =>
      if k' = k then (k', v) :: rest else (k', v') :: dinsert k v rest

/-- Python `d.get(k)`. -/
def dlook {K V : Type} [DecidableEq K] (k : K) :
    List (K × V) → Option V
  | [] => none
  | (k', v) :: rest => if k' = k then some v else dlook k rest

/-- The keys of an association list. -/
def dkeys {K V : Type} (l : List (K × V)) : List K := l.map Prod.fst

/-- Python `d.setdefault(k, []).append(t)` on a dict of lists: append the
task to the existing entry for the key, else add a fresh singleton entry
at the end (first-encounter key order, as in the orchestrator's
`tasks_by_category`). -/
def addTask {K V : Type} [DecidableEq K] (k : K) (t : V) :
    List (K × List V) → List (K × List V)
  | [] => [(k, [t])]
  | (k', ts) :: rest =>
      if k' = k then (k', ts ++ [t]) :: rest else (k', ts) :: addTask k t rest

/-! ## Python `enumerate` -/

/-- `enumFrom n l` pairs every item of `l` with its index, starting at
`n`; `enumFrom 0` is Python's `enumerate`. -/
def enumFrom {α : Type} (n : Nat) : List α → List (Nat × α)
  | [] => []
  | a :: as => (n, a) :: enumFrom (n + 1) as

/-! ## Data model (`models.py`) -/

/-- `SentimentType = Literal["positive", "negative", "neutral", "mixed"]`. -/
inductive Sentiment : Type where
  | positive
  | negative
  | neutral
  | mixed
deriving DecidableEq, Repr

/-- `CategorySpan`: one Stage-1 span. -/
structure CategorySpan : Type where
  excerpt : String
  reasoning : String
  category : String
  sentiment : Sentiment
deriving DecidableEq, Repr

/-- `Stage1Output`. -/
structure Stage1Output : Type where
  classifications : List CategorySpan
deriving DecidableEq, Repr

/-- `SubCategorySpan`: one Stage-2 span. -/
structure SubCategorySpan : Type where
  excerpt : String
  reasoning : String
  sub_category : String
  sentiment : Sentiment
deriving DecidableEq, Repr

/-- `Stage2Output`. -/
structure Stage2Output : Type where
  classifications : List SubCategorySpan
deriving DecidableEq, Repr

/-- `ElementSpan`: one Stage-3 span. -/
structure ElementSpan : Type where
  excerpt : String
  reasoning : String
  element : String
  sentiment : Sentiment
deriving DecidableEq, Repr

/-- `Stage3Output`. -/
structure Stage3Output : Type where
  classifications : List ElementSpan
deriving DecidableEq, Repr

/-- `AttributeSpan`: one Stage-4 span (Python field `attribute`, renamed
`attrLabel` because `attribute` is a Lean keyword). -/
structure AttributeSpan : Type where
  excerpt : String
  reasoning : String
  attrLabel : String
  sentiment : Sentiment
deriving DecidableEq, Repr

/-- `Stage4Output`. -/
structure Stage4Output : Type where
  classifications : List AttributeSpan
deriving DecidableEq, Repr

/-- `ClassificationSpan`: the flattened, fully-traceable output record;
every field is `Optional[...] = None` in the source (Python field
`attribute` renamed `attrLabel`). -/
structure ClassificationSpan : Type where
  category : Option String := none
  stage1_excerpt : Option String := none
  stage1_reasoning : Option String := none
  stage1_sentiment : Option Sentiment := none
  sub_category : Option String := none
  stage2_excerpt : Option String := none
  stage2_reasoning : Option String := none
  stage2_sentiment : Option Sentiment := none
  element : Option String := none
  stage3_excerpt : Option String := none
  stage3_reasoning : Option String := none
  stage3_sentiment : Option Sentiment := none
  attrLabel : Option String := none
  stage4_excerpt : Option String := none
  stage4_reasoning : Option String := none
  stage4_sentiment : Option Sentiment := none
deriving DecidableEq, Repr

/-- `FinalClassificationOutput`. -/
structure FinalClassificationOutput : Type where
  original_comment : String
  classifications : List ClassificationSpan
deriving DecidableEq, Repr

/-! ## Taxonomy and navigator (`hierarchy_navigator.py`) -/

/-- A taxonomy node: a name and a (possibly empty) ordered list of child
nodes.  Descriptive metadata (definitions, keywords, ...) is not modelled:
the navigator's lookups touch only `name` and `children`. -/
inductive TaxNode : Type where
  | node : String → List TaxNode → TaxNode
deriving Repr

/-- The node's `name` field. -/
def TaxNode.name : TaxNode → String
  | .node n _ => n

/-- The node's `children` field (`node.get("children", [])`). -/
def TaxNode.children : TaxNode → List TaxNode
  | .node _ c => c

/-- `HierarchyNavigator._build_cache`: a dict from category name to
category node, built by inserting the root's children in order. -/
def categoryCache (t : TaxNode) : List (String × TaxNode) :=
  t.children.foldl (fun acc ch => dinsert ch.name ch acc) []

/-- `HierarchyNavigator.get_categories`. -/
def getCategories (t : TaxNode) : List String :=
  t.children.map TaxNode.name

/-- `HierarchyNavigator.get_category_node`. -/
def getCategoryNode (t : TaxNode) (category : String) : Option TaxNode :=
  dlook category (categoryCache t)

/-- `HierarchyNavigator.get_subcategories`. -/
def getSubcategories (t : TaxNode) (category : String) : List String :=
  match getCategoryNode t category with
  | none => []
  | some n => n.children.map TaxNode.name

/-- `HierarchyNavigator.get_subcategory_node` (a linear scan returning
the first child whose name matches). -/
def getSubcategoryNode (t : TaxNode) (category subcategory : String) :
    Option TaxNode :=
  match getCategoryNode t category with
  | none => none
  | some n => n.children.find? (fun ch => ch.name == subcategory)

/-- `HierarchyNavigator.get_elements`. -/
def getElements (t : TaxNode) (category : String)
    (subcategory : Option String) : List String :=
  match subcategory with
  | none =>
      match getCategoryNode t category with
      | none => []
      | some n => n.children.map TaxNode.name
  | some s =>
      match getSubcategoryNode t category s with
      | none => []
      | some n => n.children.map TaxNode.name

/-- `HierarchyNavigator.get_element_node`. -/
def getElementNode (t : TaxNode) (category : String)
    (subcategory : Option String) (element : String) : Option TaxNode :=
  match subcategory with
  | none =>
      match getCategoryNode t category with
      | none => none
      | some n => n.children.find? (fun ch => ch.name == element)
  | some s =>
      match getSubcategoryNode t category s with
      | none => none
      | some n => n.children.find? (fun ch => ch.name == element)

/-- `HierarchyNavigator.get_attributes`. -/
def getAttributes (t : TaxNode) (category : String)
    (subcategory : Option String) (element : String) : List String :=
  match getElementNode t category subcategory element with
  | none => []
  | some n => n.children.map TaxNode.name

/-! ## Dynamic schema generator (`dynamic_schema.py`) -/

/-- The essence of a generated per-stage Pydantic schema: the name of its
label field and the exact list of values its label `Literal` admits (the
fixed `excerpt`/`reasoning`/`sentiment` fields are common to all stages). -/
structure StageSchema : Type where
  labelField : String
  labelEnum : List String
deriving DecidableEq, Repr

/-- `DynamicSchemaGenerator.get_stage3_schema`: the element label is
restricted to `nav.get_elements(category, sub_category)`, degenerating to
the single sentinel `""` when that list is empty. -/
def getStage3Schema (t : TaxNode) (category sub_category : String) :
    StageSchema :=
  let elements := getElements t category (some sub_category)
  { labelField := "element"
    labelEnum := if elements = [] then [""] else elements }

/-- The `context` dict of `validate_prediction` (absent keys are `None`). -/
structure PredContext : Type where
  category : Option String := none
  sub_category : Option String := none
  element : Option String := none
deriving DecidableEq, Repr

/-- `nav.get_subcategories(category)` when `category` came from
`context.get("category")`: a `None` key misses the cache and yields `[]`. -/
def getSubcategoriesOpt (t : TaxNode) : Option String → List String
  | none => []
  | some c => getSubcategories t c

/-- `nav.get_elements(category, sub_category)` with an optional category. -/
def getElementsOpt (t : TaxNode) :
    Option String → Option String → List String
  | none, _ => []
  | some c, s => getElements t c s

/-- `nav.get_attributes(category, sub_category, element)` with optional
category and element (a `None` category or element resolves no node). -/
def getAttributesOpt (t : TaxNode) :
    Option String → Option String → Option String → List String
  | some c, s, some e => getAttributes t c s e
  | _, _, _ => []

/-- `DynamicSchemaGenerator.validate_prediction`. -/
def validatePrediction (t : TaxNode) (stage : Nat)
    (predicted_label : String) (context : PredContext) : Bool :=
  if stage = 1 then decide (predicted_label ∈ getCategories t)
  else if stage = 2 then
    decide (predicted_label ∈ getSubcategoriesOpt t context.category)
  else if stage = 3 then
    decide (predicted_label ∈
      getElementsOpt t context.category context.sub_category)
  else if stage = 4 then
    decide (predicted_label ∈
      getAttributesOpt t context.category context.sub_category context.element)
  else false

/-! ## Filename derivation (`prompt_loader.py`) -/

/-- `PromptLoader._label_to_filename`: lower-case, then the chain of
`str.replace` calls, then append `".yaml"`. -/
def labelToFilename (label : String) : String :=
  ((((((label.toLower.replace "/" "_").replace " & " "_and_").replace
      "&" "_and_").replace "-" "_").replace " " "_").replace "(" "").replace
      ")" "" ++ ".yaml"

/-! ## Orchestrator (`orchestrator.py`)

`HierarchicalClassifier` holds mutable state (`self.yaml_usage`) and three
collaborators (prompt loader, schema generator, processor).  The state is
threaded explicitly; the collaborators — whose behaviour is external
(YAML files on disk, the generation engine) — are function-valued fields
of a `ClassifierEnv`.  `batch_size` only controls how the external
processor chunks its work, so it does not appear in the model. -/

/-- `self.yaml_usage`: per-stage `"used"` / `"skipped"` Python sets,
initialized empty in `__init__`. -/
structure YamlUsage : Type where
  s1used : Finset String := ∅
  s1skipped : Finset String := ∅
  s2used : Finset String := ∅
  s2skipped : Finset String := ∅
  s3used : Finset String := ∅
  s3skipped : Finset String := ∅
  s4used : Finset String := ∅
  s4skipped : Finset String := ∅
deriving DecidableEq

/-- The orchestrator's collaborators: the prompt loader's
`load_stageN_prompt` methods (stages 2-4 return `None` when the context's
YAML is missing or not ready) and, per stage, the composition of
`processor.process_with_schema` and `processor.parse_results_with_schema`
for the schema generated for one context (an unparseable or invalid item
is `none`). -/
structure ClassifierEnv : Type where
  loadStage1Prompt : String → String
  loadStage2Prompt : String → String → Option String
  loadStage3Prompt : String → String → String → Option String
  loadStage4Prompt : String → String → String → String → Option String
  proc1 : List String → List (Option Stage1Output)
  proc2 : String → List String → List (Option Stage2Output)
  proc3 : String × String → List String → List (Option Stage3Output)
  proc4 : String × String × String → List String → List (Option Stage4Output)

/-- `HierarchicalClassifier._run_stage1`: prompts for every comment, one
shared schema, then `{i: result for i, result in enumerate(parsed) if
result is not None}`. -/
def runStage1 (env : ClassifierEnv) (u : YamlUsage) (comments : List String) :
    YamlUsage × List (Nat × Stage1Output) :=
  let u1 := { u with s1used := insert "Stage 1" u.s1used }
  let prompts := comments.map env.loadStage1Prompt
  let parsed := env.proc1 prompts
  (u1, (enumFrom 0 parsed).filterMap (fun p => p.2.map (fun r => (p.1, r))))

/-- The body of the Stage-2 task-collection loop for one Stage-1 span:
record the category as skipped when its prompt is unavailable, else
record it as used and append the task under its category. -/
def stage2SpanStep (env : ClassifierEnv) (i : Nat) (comment : String)
    (acc : YamlUsage × List (String × List (Nat × String × String)))
    (cs : CategorySpan) :
    YamlUsage × List (String × List (Nat × String × String)) :=
  match env.loadStage2Prompt comment cs.category with
  | none =>
      ({ acc.1 with s2skipped := insert cs.category acc.1.s2skipped }, acc.2)
  | some prompt =>
      ({ acc.1 with s2used := insert cs.category acc.1.s2used },
        addTask cs.category (i, comment, prompt) acc.2)

/-- `_run_stage2`'s `tasks_by_category` collection loop over
`stage1_results.items()` and each result's spans. -/
def stage2Tasks (env : ClassifierEnv) (comments : List String)
    (u : YamlUsage) (s1 : List (Nat × Stage1Output)) :
    YamlUsage × List (String × List (Nat × String × String)) :=
  s1.foldl (fun acc e =>
      e.2.classifications.foldl (stage2SpanStep env e.1 (comments.getD e.1 "")) acc)
    (u, [])

/-- `_run_stage2`'s processing loop: per category, one batched generation
over that category's tasks, then `all_results[(comment_idx, cat)] =
result` for every non-`None` parsed result (Python `zip` truncates at the
shorter list). -/
def runStage2Core (env : ClassifierEnv)
    (tasks : List (String × List (Nat × String × String))) :
    List ((Nat × String) × Stage2Output) :=
  tasks.foldl (fun all e =>
      let category := e.1
      let task_indices := e.2.map (fun t => (t.1, category))
      let task_prompts := e.2.map (fun t => t.2.2)
      let parsed := env.proc2 category task_prompts
      (task_indices.zip parsed).foldl (fun all2 pr =>
          match pr.2 with
          | none => all2
          | some r => dinsert pr.1 r all2) all)
    []

/-- `HierarchicalClassifier._run_stage2`. -/
def runStage2 (env : ClassifierEnv) (u : YamlUsage) (comments : List String)
    (s1 : List (Nat × Stage1Output)) :
    YamlUsage × List ((Nat × String) × Stage2Output) :=
  let tu := stage2Tasks env comments u s1
  (tu.1, runStage2Core env tu.2)

/-- The body of the Stage-3 task-collection loop for one Stage-2 span. -/
def stage3SpanStep (env : ClassifierEnv) (i : Nat) (comment category : String)
    (acc : YamlUsage × List ((String × String) × List (Nat × String × String)))
    (ss : SubCategorySpan) :
    YamlUsage × List ((String × String) × List (Nat × String × String)) :=
  match env.loadStage3Prompt comment category ss.sub_category with
  | none =>
      ({ acc.1 with s3skipped := insert ss.sub_category acc.1.s3skipped }, acc.2)
  | some prompt =>
      ({ acc.1 with s3used := insert ss.sub_category acc.1.s3used },
        addTask (category, ss.sub_category) (i, comment, prompt) acc.2)

/-- `_run_stage3`'s `tasks_by_subcat` collection loop over
`stage2_results.items()`. -/
def stage3Tasks (env : ClassifierEnv) (comments : List String)
    (u : YamlUsage) (s2 : List ((Nat × String) × Stage2Output)) :
    YamlUsage × List ((String × String) × List (Nat × String × String)) :=
  s2.foldl (fun acc e =>
      e.2.classifications.foldl
        (stage3SpanStep env e.1.1 (comments.getD e.1.1 "") e.1.2) acc)
    (u, [])

/-- `_run_stage3`'s processing loop. -/
def runStage3Core (env : ClassifierEnv)
    (tasks : List ((String × String) × List (Nat × String × String))) :
    List ((Nat × String × String) × Stage3Output) :=
  tasks.foldl (fun all e =>
      let key := e.1
      let task_indices := e.2.map (fun t => (t.1, key.1, key.2))
      let task_prompts := e.2.map (fun t => t.2.2)
      let parsed := env.proc3 key task_prompts
      (task_indices.zip parsed).foldl (fun all2 pr =>
          match pr.2 with
          | none => all2
          | some r => dinsert pr.1 r all2) all)
    []

/-- `HierarchicalClassifier._run_stage3`. -/
def runStage3 (env : ClassifierEnv) (u : YamlUsage) (comments : List String)
    (s2 : List ((Nat × String) × Stage2Output)) :
    YamlUsage × List ((Nat × String × String) × Stage3Output) :=
  let tu := stage3Tasks env comments u s2
  (tu.1, runStage3Core env tu.2)

/-- The body of the Stage-4 task-collection loop for one Stage-3 span. -/
def stage4SpanStep (env : ClassifierEnv) (i : Nat)
    (comment category sub_category : String)
    (acc : YamlUsage ×
      List ((String × String × String) × List (Nat × String × String)))
    (es : ElementSpan) :
    YamlUsage ×
      List ((String × String × String) × List (Nat × String × String)) :=
  match env.loadStage4Prompt comment category sub_category es.element with
  | none =>
      ({ acc.1 with s4skipped := insert es.element acc.1.s4skipped }, acc.2)
  | some prompt =>
      ({ acc.1 with s4used := insert es.element acc.1.s4used },
        addTask (category, sub_category, es.element) (i, comment, prompt) acc.2)

/-- `_run_stage4`'s `tasks_by_element` collection loop over
`stage3_results.items()`. -/
def stage4Tasks (env : ClassifierEnv) (comments : List String)
    (u : YamlUsage) (s3 : List ((Nat × String × String) × Stage3Output)) :
    YamlUsage ×
      List ((String × String × String) × List (Nat × String × String)) :=
  s3.foldl (fun acc e =>
      e.2.classifications.foldl
        (stage4SpanStep env e.1.1 (comments.getD e.1.1 "") e.1.2.1 e.1.2.2) acc)
    (u, [])

/-- `_run_stage4`'s processing loop. -/
def runStage4Core (env : ClassifierEnv)
    (tasks : List ((String × String × String) × List (Nat × String × String))) :
    List ((Nat × String × String × String) × Stage4Output) :=
  tasks.foldl (fun all e =>
      let key := e.1
      let task_indices := e.2.map (fun t => (t.1, key.1, key.2.1, key.2.2))
      let task_prompts := e.2.map (fun t => t.2.2)
      let parsed := env.proc4 key task_prompts
      (task_indices.zip parsed).foldl (fun all2 pr =>
          match pr.2 with
          | none => all2
          | some r => dinsert pr.1 r all2) all)
    []

/-- `HierarchicalClassifier._run_stage4`. -/
def runStage4 (env : ClassifierEnv) (u : YamlUsage) (comments : List String)
    (s3 : List ((Nat × String × String) × Stage3Output)) :
    YamlUsage × List ((Nat × String × String × String) × Stage4Output) :=
  let tu := stage4Tasks env comments u s3
  (tu.1, runStage4Core env tu.2)

/-! ## Result assembly (`_build_final_output`) -/

/-- A record that terminates at the category level (all deeper fields at
their `None` defaults). -/
def span1Record (cs : CategorySpan) : ClassificationSpan :=
  { category := some cs.category
    stage1_excerpt := some cs.excerpt
    stage1_reasoning := some cs.reasoning
    stage1_sentiment := some cs.sentiment }

/-- A record that terminates at the sub-category level. -/
def span2Record (cs : CategorySpan) (ss : SubCategorySpan) :
    ClassificationSpan :=
  { span1Record cs with
    sub_category := some ss.sub_category
    stage2_excerpt := some ss.excerpt
    stage2_reasoning := some ss.reasoning
    stage2_sentiment := some ss.sentiment }

/-- A record that terminates at the element level. -/
def span3Record (cs : CategorySpan) (ss : SubCategorySpan)
    (es : ElementSpan) : ClassificationSpan :=
  { span2Record cs ss with
    element := some es.element
    stage3_excerpt := some es.excerpt
    stage3_reasoning := some es.reasoning
    stage3_sentiment := some es.sentiment }

/-- A full four-level record. -/
def span4Record (cs : CategorySpan) (ss : SubCategorySpan) (es : ElementSpan)
    (sp4 : AttributeSpan) : ClassificationSpan :=
  { span3Record cs ss es with
    attrLabel := some sp4.attrLabel
    stage4_excerpt := some sp4.excerpt
    stage4_reasoning := some sp4.reasoning
    stage4_sentiment := some sp4.sentiment }

/-- The `max_stage = 2` branch of `_build_final_output` for one Stage-1
span: `stage2_result is None or not stage2_result.classifications` emits
one category-terminated record, else one record per Stage-2 span. -/
def expandStage2 (s2 : List ((Nat × String) × Stage2Output)) (idx : Nat)
    (cs : CategorySpan) : List ClassificationSpan :=
  match dlook (idx, cs.category) s2 with
  | none => [span1Record cs]
  | some r2 =>
      if r2.classifications = [] then [span1Record cs]
      else r2.classifications.map (fun ss => span2Record cs ss)

/-- The `max_stage = 3` branch for one Stage-1 span: a missing Stage-2
result is `continue` (the span is dropped); a missing or empty Stage-3
result emits one sub-category-terminated record. -/
def expandStage3 (s2 : List ((Nat × String) × Stage2Output))
    (s3 : List ((Nat × String × String) × Stage3Output)) (idx : Nat)
    (cs : CategorySpan) : List ClassificationSpan :=
  match dlook (idx, cs.category) s2 with
  | none => []
  | some r2 =>
      r2.classifications.flatMap (fun ss =>
        match dlook (idx, cs.category, ss.sub_category) s3 with
        | none => [span2Record cs ss]
        | some r3 =>
            if r3.classifications = [] then [span2Record cs ss]
            else r3.classifications.map (fun es => span3Record cs ss es))

/-- The `max_stage = 4` branch for one Stage-1 span: missing Stage-2 or
Stage-3 results are `continue`; a missing or empty Stage-4 result emits
one element-terminated record. -/
def expandStage4 (s2 : List ((Nat × String) × Stage2Output))
    (s3 : List ((Nat × String × String) × Stage3Output))
    (s4 : List ((Nat × String × String × String) × Stage4Output)) (idx : Nat)
    (cs : CategorySpan) : List ClassificationSpan :=
  match dlook (idx, cs.category) s2 with
  | none => []
  | some r2 =>
      r2.classifications.flatMap (fun ss =>
        match dlook (idx, cs.category, ss.sub_category) s3 with
        | none => []
        | some r3 =>
            r3.classifications.flatMap (fun es =>
              match dlook (idx, cs.category, ss.sub_category, es.element) s4 with
              | none => [span3Record cs ss es]
              | some r4 =>
                  if r4.classifications = [] then [span3Record cs ss es]
                  else r4.classifications.map (fun sp4 => span4Record cs ss es sp4)))

/-- The body of `_build_final_output`'s per-comment loop: a comment with
no Stage-1 result gets an empty classification list; otherwise the branch
taken depends on which stage maps were passed (`None` = stage not run). -/
def finalForComment (s1 : List (Nat × Stage1Output))
    (os2 : Option (List ((Nat × String) × Stage2Output)))
    (os3 : Option (List ((Nat × String × String) × Stage3Output)))
    (os4 : Option (List ((Nat × String × String × String) × Stage4Output)))
    (idx : Nat) (comment : String) : FinalClassificationOutput :=
  match dlook idx s1 with
  | none => ⟨comment, []⟩
  | some r1 =>
      match os2 with
      | none => ⟨comment, r1.classifications.map span1Record⟩
      | some s2 =>
          match os3 with
          | none => ⟨comment, r1.classifications.flatMap (expandStage2 s2 idx)⟩
          | some s3 =>
              match os4 with
              | none =>
                  ⟨comment, r1.classifications.flatMap (expandStage3 s2 s3 idx)⟩
              | some s4 =>
                  ⟨comment, r1.classifications.flatMap (expandStage4 s2 s3 s4 idx)⟩

/-- `HierarchicalClassifier._build_final_output`. -/
def buildFinalOutput (comments : List String) (s1 : List (Nat × Stage1Output))
    (os2 : Option (List ((Nat × String) × Stage2Output)))
    (os3 : Option (List ((Nat × String × String) × Stage3Output)))
    (os4 : Option (List ((Nat × String × String × String) × Stage4Output))) :
    List FinalClassificationOutput :=
  (enumFrom 0 comments).map (fun p => finalForComment s1 os2 os3 os4 p.1 p.2)

/-- `HierarchicalClassifier.classify_comments`: the eager depth check,
then stages 1 up to `max_stage`, then `_build_final_output` over whatever
stage maps exist.  The raised `ValueError` is an `Except.error`; the
mutable `yaml_usage` is threaded as the first component. -/
def classifyComments (env : ClassifierEnv) (u : YamlUsage)
    (comments : List String) (maxStage : Int) :
    YamlUsage × Except String (List FinalClassificationOutput) :=
  if ¬ (1 ≤ maxStage ∧ maxStage ≤ 4) then
    (u, .error "max_stage must be 1-4")
  else
    let r1 := runStage1 env u comments
    if maxStage = 1 then
      (r1.1, .ok (buildFinalOutput comments r1.2 none none none))
    else
      let r2 := runStage2 env r1.1 comments r1.2
      if maxStage = 2 then
        (r2.1, .ok (buildFinalOutput comments r1.2 (some r2.2) none none))
      else
        let r3 := runStage3 env r2.1 comments r2.2
        if maxStage = 3 then
          (r3.1, .ok (buildFinalOutput comments r1.2 (some r2.2) (some r3.2) none))
        else
          let r4 := runStage4 env r3.1 comments r3.2
          (r4.1,
            .ok (buildFinalOutput comments r1.2 (some r2.2) (some r3.2) (some r4.2)))

/-- Pointwise inclusion of the eight usage sets: everything recorded in
`a` is still recorded in `b`. -/
def usageLE (a b : YamlUsage) : Prop :=
  a.s1used ⊆ b.s1used ∧ a.s1skipped ⊆ b.s1skipped ∧
  a.s2used ⊆ b.s2used ∧ a.s2skipped ⊆ b.s2skipped ∧
  a.s3used ⊆ b.s3used ∧ a.s3skipped ⊆ b.s3skipped ∧
  a.s4used ⊆ b.s4used ∧ a.s4skipped ⊆ b.s4skipped

/-! ## Concrete fixtures for witnesses and counterexamples -/

/-- A small taxonomy: category "Venue" has sub-categories "Hotel" (with
element "Room" and attribute "Temperature") and "Food" (childless), and
category "Catering" has one childless sub-category. -/
def sampleTax : TaxNode :=
  .node "root"
    [.node "Venue"
      [.node "Hotel" [.node "Room" [.node "Temperature" []]],
       .node "Food" []],
     .node "Catering" [.node "Buffet" []]]

/-- A Stage-1 span labelling an excerpt with category `"Venue"`. -/
def sampleSpan : CategorySpan :=
  { excerpt := "the room was cold", reasoning := "mentions the venue",
    category := "Venue", sentiment := .negative }

/-- An environment whose Stage-1 pass finds exactly `sampleSpan` in every
comment and whose Stage-2 templates are all unavailable, so every Stage-2
category context is skipped. -/
def cexEnv : ClassifierEnv :=
  { loadStage1Prompt := fun c => c
    loadStage2Prompt := fun _ _ => none
    loadStage3Prompt := fun _ _ _ => none
    loadStage4Prompt := fun _ _ _ _ => none
    proc1 := fun prompts =>
      prompts.map (fun _ => some { classifications := [sampleSpan] })
    proc2 := fun _ _ => []
    proc3 := fun _ _ => []
    proc4 := fun _ _ => [] }

/-- An environment whose generation engine yields no parseable Stage-1
result at all. -/
def emptyEnv : ClassifierEnv :=
  { loadStage1Prompt := fun c => c
    loadStage2Prompt := fun _ _ => some "p"
    loadStage3Prompt := fun _ _ _ => some "p"
    loadStage4Prompt := fun _ _ _ _ => some "p"
    proc1 := fun _ => []
    proc2 := fun _ _ => []
    proc3 := fun _ _ => []
    proc4 := fun _ _ => [] }

/-! ## Library lemmas for the embedding -/

theorem dlook_dinsert_self {K V : Type} [DecidableEq K] (k : K) (v : V)
    (l : List (K × V)) : dlook k (dinsert k v l) = some v := by
  induction l with
  | nil => simp [dinsert, dlook]
  | cons p rest ih =>
      obtain ⟨k', v'⟩ := p
      by_cases h : k' = k
      · simp [dinsert, dlook, h]
      · simp [dinsert, dlook, h, ih]

theorem dlook_dinsert_ne {K V : Type} [DecidableEq K] {k k' : K} (v : V)
    (l : List (K × V)) (h : k' ≠ k) :
    dlook k (dinsert k' v l) = dlook k l := by
  induction l with
  | nil => simp [dinsert, dlook, h]
  | cons p rest ih =>
      obtain ⟨k'', v''⟩ := p
      by_cases h2 : k'' = k'
      · subst h2
        simp [dinsert, dlook, h]
      · by_cases h3 : k'' = k
        · simp [dinsert, dlook, h2, h3, Ne.symm h]
        · simp [dinsert, dlook, h2, h3, ih]

theorem dkeys_dinsert {K V : Type} [DecidableEq K] (k : K) (v : V)
    (l : List (K × V)) :
    dkeys (dinsert k v l) = if k ∈ dkeys l then dkeys l else dkeys l ++ [k] := by
  induction l with
  | nil => simp [dinsert, dkeys]
  | cons p rest ih =>
      obtain ⟨k', v'⟩ := p
      by_cases h : k' = k
      · subst h
        simp [dinsert, dkeys]
      · have hne : k ≠ k' := fun hkk => h hkk.symm
        have hstep : dinsert k v ((k', v') :: rest) = (k', v') :: dinsert k v rest := by
          simp [dinsert, h]
        rw [hstep]
        simp only [dkeys, List.map_cons] at ih ⊢
        by_cases hmem : k ∈ rest.map Prod.fst
        · have hm : k ∈ (k', v').fst :: rest.map Prod.fst :=
            List.mem_cons_of_mem _ hmem
          rw [if_pos hm, ih, if_pos hmem]
        · have hm : k ∉ (k', v').fst :: rest.map Prod.fst := by
            simp [hne, hmem]
          rw [if_neg hm, ih, if_neg hmem, List.cons_append]

theorem nodup_dkeys_dinsert {K V : Type} [DecidableEq K] (k : K) (v : V)
    {l : List (K × V)} (h : (dkeys l).Nodup) :
    (dkeys (dinsert k v l)).Nodup := by
  rw [dkeys_dinsert]
  by_cases hmem : k ∈ dkeys l
  · simpa [hmem] using h
  · simpa [hmem, List.nodup_append, hmem] using h

theorem dlook_eq_none_of_not_mem_dkeys {K V : Type} [DecidableEq K] {k : K}
    {l : List (K × V)} (h : k ∉ dkeys l) : dlook k l = none := by
  induction l with
  | nil => rfl
  | cons p rest ih =>
      obtain ⟨k', v'⟩ := p
      rw [show dkeys ((k', v') :: rest) = k' :: dkeys rest from rfl,
        List.mem_cons] at h
      push_neg at h
      have hk : ¬ (k' = k) := fun hkk => h.1 hkk.symm
      simp [dlook, hk, ih h.2]

theorem enumFrom_length {α : Type} (n : Nat) (l : List α) :
    (enumFrom n l).length = l.length := by
  induction l generalizing n with
  | nil => rfl
  | cons a as ih => simp [enumFrom, ih]

theorem enumFrom_get? {α : Type} (n i : Nat) (l : List α) :
    (enumFrom n l).get? i = (l.get? i).map (fun a => (n + i, a)) := by
  induction l generalizing n i with
  | nil => simp [enumFrom]
  | cons a as ih =>
      cases i with
      | zero => simp [enumFrom]
      | succ j =>
          have h1 : (enumFrom n (a :: as)).get? (j + 1) = (enumFrom (n + 1) as).get? j := rfl
          have h2 : (a :: as).get? (j + 1) = as.get? j := rfl
          rw [h1, h2, ih (n + 1) j]
          simp only [show n + 1 + j = n + (j + 1) from by omega]

theorem enumFrom_map_snd {α : Type} (n : Nat) (l : List α) :
    (enumFrom n l).map Prod.snd = l := by
  induction l generalizing n with
  | nil => rfl
  | cons a as ih => simp [enumFrom, ih]

/-- A predicate preserved by every step of a `foldl` (steps only need to
preserve it for list members) holds of the fold's result. -/
theorem foldl_invariant_mem {α β : Type} (P : α → Prop) (f : α → β → α)
    (l : List β) (hstep : ∀ a b, b ∈ l → P a → P (f a b)) :
    ∀ a, P a → P (l.foldl f a) := by
  induction l with
  | nil => intro a h; exact h
  | cons x xs ih =>
      intro a h
      exact ih (fun a' b hb => hstep a' b (List.mem_cons_of_mem _ hb))
        (f a x) (hstep a x (List.mem_cons_self _ _) h)

theorem addTask_keys {K V : Type} [DecidableEq K] (k : K) (t : V)
    (l : List (K × List V)) :
    (addTask k t l).map Prod.fst =
      if k ∈ l.map Prod.fst then l.map Prod.fst else l.map Prod.fst ++ [k] := by
  induction l with
  | nil => simp [addTask]
  | cons p rest ih =>
      obtain ⟨k', ts⟩ := p
      by_cases h : k' = k
      · subst h
        simp [addTask]
      · have hne : k ≠ k' := fun hkk => h hkk.symm
        have hstep : addTask k t ((k', ts) :: rest) = (k', ts) :: addTask k t rest := by
          simp [addTask, h]
        rw [hstep]
        simp only [List.map_cons] at ih ⊢
        by_cases hmem : k ∈ rest.map Prod.fst
        · have hm : k ∈ (k', ts).fst :: rest.map Prod.fst :=
            List.mem_cons_of_mem _ hmem
          rw [if_pos hm, ih, if_pos hmem]
        · have hm : k ∉ (k', ts).fst :: rest.map Prod.fst := by
            simp [hne, hmem]
          rw [if_neg hm, ih, if_neg hmem, List.cons_append]

/-! ## Usage-state monotonicity -/

theorem usageLE_refl (a : YamlUsage) : usageLE a a :=
  ⟨Finset.Subset.refl _, Finset.Subset.refl _, Finset.Subset.refl _,
    Finset.Subset.refl _, Finset.Subset.refl _, Finset.Subset.refl _,
    Finset.Subset.refl _, Finset.Subset.refl _⟩

theorem usageLE_trans {a b c : YamlUsage} (h1 : usageLE a b)
    (h2 : usageLE b c) : usageLE a c := by
  obtain ⟨a1, a2, a3, a4, a5, a6, a7, a8⟩ := h1
  obtain ⟨b1, b2, b3, b4, b5, b6, b7, b8⟩ := h2
  exact ⟨a1.trans b1, a2.trans b2, a3.trans b3, a4.trans b4,
    a5.trans b5, a6.trans b6, a7.trans b7, a8.trans b8⟩

theorem usageLE_foldl {β γ : Type} (f : (YamlUsage × γ) → β → (YamlUsage × γ))
    (hf : ∀ a b, usageLE a.1 (f a b).1) (l : List β) (a : YamlUsage × γ) :
    usageLE a.1 (l.foldl f a).1 := by
  induction l generalizing a with
  | nil => exact usageLE_refl _
  | cons x xs ih => exact usageLE_trans (hf a x) (ih (f a x))

theorem stage2SpanStep_usage (env : ClassifierEnv) (i : Nat) (c : String)
    (acc : YamlUsage × List (String × List (Nat × String × String)))
    (cs : CategorySpan) : usageLE acc.1 (stage2SpanStep env i c acc cs).1 := by
  unfold stage2SpanStep
  cases env.loadStage2Prompt c cs.category with
  | none =>
      exact ⟨Finset.Subset.refl _, Finset.Subset.refl _, Finset.Subset.refl _,
        Finset.subset_insert _ _, Finset.Subset.refl _, Finset.Subset.refl _,
        Finset.Subset.refl _, Finset.Subset.refl _⟩
  | some p =>
      exact ⟨Finset.Subset.refl _, Finset.Subset.refl _,
        Finset.subset_insert _ _, Finset.Subset.refl _, Finset.Subset.refl _,
        Finset.Subset.refl _, Finset.Subset.refl _, Finset.Subset.refl _⟩

theorem stage3SpanStep_usage (env : ClassifierEnv) (i : Nat)
    (c cat : String)
    (acc : YamlUsage × List ((String × String) × List (Nat × String × String)))
    (ss : SubCategorySpan) :
    usageLE acc.1 (stage3SpanStep env i c cat acc ss).1 := by
  unfold stage3SpanStep
  cases env.loadStage3Prompt c cat ss.sub_category with
  | none =>
      exact ⟨Finset.Subset.refl _, Finset.Subset.refl _, Finset.Subset.refl _,
        Finset.Subset.refl _, Finset.Subset.refl _, Finset.subset_insert _ _,
        Finset.Subset.refl _, Finset.Subset.refl _⟩
  | some p =>
      exact ⟨Finset.Subset.refl _, Finset.Subset.refl _, Finset.Subset.refl _,
        Finset.Subset.refl _, Finset.subset_insert _ _, Finset.Subset.refl _,
        Finset.Subset.refl _, Finset.Subset.refl _⟩

theorem stage4SpanStep_usage (env : ClassifierEnv) (i : Nat)
    (c cat sub : String)
    (acc : YamlUsage ×
      List ((String × String × String) × List (Nat × String × String)))
    (es : ElementSpan) :
    usageLE acc.1 (stage4SpanStep env i c cat sub acc es).1 := by
  unfold stage4SpanStep
  cases env.loadStage4Prompt c cat sub es.element with
  | none =>
      exact ⟨Finset.Subset.refl _, Finset.Subset.refl _, Finset.Subset.refl _,
        Finset.Subset.refl _, Finset.Subset.refl _, Finset.Subset.refl _,
        Finset.Subset.refl _, Finset.subset_insert _ _⟩
  | some p =>
      exact ⟨Finset.Subset.refl _, Finset.Subset.refl _, Finset.Subset.refl _,
        Finset.Subset.refl _, Finset.Subset.refl _, Finset.Subset.refl _,
        Finset.subset_insert _ _, Finset.Subset.refl _⟩

theorem runStage1_usage (env : ClassifierEnv) (u : YamlUsage)
    (comments : List String) : usageLE u (runStage1 env u comments).1 :=
  ⟨Finset.subset_insert _ _, Finset.Subset.refl _, Finset.Subset.refl _,
    Finset.Subset.refl _, Finset.Subset.refl _, Finset.Subset.refl _,
    Finset.Subset.refl _, Finset.Subset.refl _⟩

theorem runStage2_usage (env : ClassifierEnv) (u : YamlUsage)
    (comments : List String) (s1 : List (Nat × Stage1Output)) :
    usageLE u (runStage2 env u comments s1).1 := by
  show usageLE u (stage2Tasks env comments u s1).1
  unfold stage2Tasks
  exact usageLE_foldl _
    (fun a e =>
      usageLE_foldl _
        (fun a' cs => stage2SpanStep_usage env e.1 (comments.getD e.1 "") a' cs)
        e.2.classifications a)
    s1 (u, [])

theorem runStage3_usage (env : ClassifierEnv) (u : YamlUsage)
    (comments : List String) (s2 : List ((Nat × String) × Stage2Output)) :
    usageLE u (runStage3 env u comments s2).1 := by
  show usageLE u (stage3Tasks env comments u s2).1
  unfold stage3Tasks
  exact usageLE_foldl _
    (fun a e =>
      usageLE_foldl _
        (fun a' ss =>
          stage3SpanStep_usage env e.1.1 (comments.getD e.1.1 "") e.1.2 a' ss)
        e.2.classifications a)
    s2 (u, [])

theorem runStage4_usage (env : ClassifierEnv) (u : YamlUsage)
    (comments : List String)
    (s3 : List ((Nat × String × String) × Stage3Output)) :
    usageLE u (runStage4 env u comments s3).1 := by
  show usageLE u (stage4Tasks env comments u s3).1
  unfold stage4Tasks
  exact usageLE_foldl _
    (fun a e =>
      usageLE_foldl _
        (fun a' es =>
          stage4SpanStep_usage env e.1.1 (comments.getD e.1.1 "")
            e.1.2.1 e.1.2.2 a' es)
        e.2.classifications a)
    s3 (u, [])

/-! ## `classify_comments` branch equations -/

theorem classifyComments_one (env : ClassifierEnv) (u : YamlUsage)
    (comments : List String) :
    classifyComments env u comments 1 =
      ((runStage1 env u comments).1,
        .ok (buildFinalOutput comments (runStage1 env u comments).2
          none none none)) := rfl

theorem classifyComments_two (env : ClassifierEnv) (u : YamlUsage)
    (comments : List String) :
    classifyComments env u comments 2 =
      (let r1 := runStage1 env u comments
       let r2 := runStage2 env r1.1 comments r1.2
       (r2.1, .ok (buildFinalOutput comments r1.2 (some r2.2) none none))) := rfl

theorem classifyComments_three (env : ClassifierEnv) (u : YamlUsage)
    (comments : List String) :
    classifyComments env u comments 3 =
      (let r1 := runStage1 env u comments
       let r2 := runStage2 env r1.1 comments r1.2
       let r3 := runStage3 env r2.1 comments r2.2
       (r3.1, .ok (buildFinalOutput comments r1.2 (some r2.2) (some r3.2)
         none))) := rfl

theorem classifyComments_four (env : ClassifierEnv) (u : YamlUsage)
    (comments : List String) :
    classifyComments env u comments 4 =
      (let r1 := runStage1 env u comments
       let r2 := runStage2 env r1.1 comments r1.2
       let r3 := runStage3 env r2.1 comments r2.2
       let r4 := runStage4 env r3.1 comments r3.2
       (r4.1, .ok (buildFinalOutput comments r1.2 (some r2.2) (some r3.2)
         (some r4.2)))) := rfl

theorem classifyComments_invalid (env : ClassifierEnv) (u : YamlUsage)
    (comments : List String) (m : Int) (h : ¬ (1 ≤ m ∧ m ≤ 4)) :
    classifyComments env u comments m = (u, .error "max_stage must be 1-4") := by
  unfold classifyComments
  rw [if_pos h]

/-- Every valid run's result is an `ok` of `_build_final_output` applied
to the Stage-1 map and some configuration of deeper stage maps. -/
theorem classifyComments_ok_shape (env : ClassifierEnv) (u : YamlUsage)
    (comments : List String) (m : Int) (h1 : 1 ≤ m) (h2 : m ≤ 4) :
    ∃ os2 os3 os4, (classifyComments env u comments m).2 =
      .ok (buildFinalOutput comments (runStage1 env u comments).2 os2 os3 os4) := by
  have hm : m = 1 ∨ m = 2 ∨ m = 3 ∨ m = 4 := by omega
  rcases hm with h | h | h | h <;> subst h
  · exact ⟨none, none, none, rfl⟩
  · exact ⟨some (runStage2 env (runStage1 env u comments).1 comments
        (runStage1 env u comments).2).2, none, none, rfl⟩
  · exact ⟨some (runStage2 env (runStage1 env u comments).1 comments
        (runStage1 env u comments).2).2,
      some (runStage3 env
        (runStage2 env (runStage1 env u comments).1 comments
          (runStage1 env u comments).2).1 comments
        (runStage2 env (runStage1 env u comments).1 comments
          (runStage1 env u comments).2).2).2, none, rfl⟩
  · exact ⟨some (runStage2 env (runStage1 env u comments).1 comments
        (runStage1 env u comments).2).2,
      some (runStage3 env
        (runStage2 env (runStage1 env u comments).1 comments
          (runStage1 env u comments).2).1 comments
        (runStage2 env (runStage1 env u comments).1 comments
          (runStage1 env u comments).2).2).2,
      some (runStage4 env
        (runStage3 env
          (runStage2 env (runStage1 env u comments).1 comments
            (runStage1 env u comments).2).1 comments
          (runStage2 env (runStage1 env u comments).1 comments
            (runStage1 env u comments).2).2).1 comments
        (runStage3 env
          (runStage2 env (runStage1 env u comments).1 comments
            (runStage1 env u comments).2).1 comments
          (runStage2 env (runStage1 env u comments).1 comments
            (runStage1 env u comments).2).2).2).2, rfl⟩

/-- For `max_stage` 1 or 2 the run's result is assembled with no Stage-3
map (the branch of `_build_final_output` that never drops a span). -/
theorem classifyComments_ok_shape12 (env : ClassifierEnv) (u : YamlUsage)
    (comments : List String) (m : Int) (hm : m = 1 ∨ m = 2) :
    ∃ os2, (classifyComments env u comments m).2 =
      .ok (buildFinalOutput comments (runStage1 env u comments).2 os2
        none none) := by
  rcases hm with h | h <;> subst h
  · exact ⟨none, rfl⟩
  · exact ⟨some (runStage2 env (runStage1 env u comments).1 comments
        (runStage1 env u comments).2).2, rfl⟩

/-! ## Result-assembly structure -/

theorem finalForComment_original (s1 : List (Nat × Stage1Output))
    (os2 : Option (List ((Nat × String) × Stage2Output)))
    (os3 : Option (List ((Nat × String × String) × Stage3Output)))
    (os4 : Option (List ((Nat × String × String × String) × Stage4Output)))
    (idx : Nat) (c : String) :
    (finalForComment s1 os2 os3 os4 idx c).original_comment = c := by
  unfold finalForComment
  cases dlook idx s1 <;> cases os2 <;> cases os3 <;> cases os4 <;> rfl

theorem buildFinalOutput_get? (comments : List String)
    (s1 : List (Nat × Stage1Output))
    (os2 : Option (List ((Nat × String) × Stage2Output)))
    (os3 : Option (List ((Nat × String × String) × Stage3Output)))
    (os4 : Option (List ((Nat × String × String × String) × Stage4Output)))
    (i : Nat) (c : String) (h : comments.get? i = some c) :
    (buildFinalOutput comments s1 os2 os3 os4).get? i =
      some (finalForComment s1 os2 os3 os4 i c) := by
  unfold buildFinalOutput
  rw [List.get?_map, enumFrom_get?, h]
  simp

theorem buildFinalOutput_length (comments : List String)
    (s1 : List (Nat × Stage1Output))
    (os2 : Option (List ((Nat × String) × Stage2Output)))
    (os3 : Option (List ((Nat × String × String) × Stage3Output)))
    (os4 : Option (List ((Nat × String × String × String) × Stage4Output))) :
    (buildFinalOutput comments s1 os2 os3 os4).length = comments.length := by
  unfold buildFinalOutput
  rw [List.length_map, enumFrom_length]

theorem buildFinalOutput_map_original (comments : List String)
    (s1 : List (Nat × Stage1Output))
    (os2 : Option (List ((Nat × String) × Stage2Output)))
    (os3 : Option (List ((Nat × String × String) × Stage3Output)))
    (os4 : Option (List ((Nat × String × String × String) × Stage4Output))) :
    (buildFinalOutput comments s1 os2 os3 os4).map
      FinalClassificationOutput.original_comment = comments := by
  unfold buildFinalOutput
  rw [List.map_map]
  have h : (FinalClassificationOutput.original_comment ∘
      fun p : Nat × String => finalForComment s1 os2 os3 os4 p.1 p.2) =
      Prod.snd := by
    funext p
    exact finalForComment_original s1 os2 os3 os4 p.1 p.2
  rw [h]
  exact enumFrom_map_snd 0 comments

/-- A comment whose Stage-1 result is absent or carries an empty span
list is assembled into an empty classification list, whatever stage maps
were passed. -/
theorem finalForComment_empty (s1 : List (Nat × Stage1Output))
    (os2 : Option (List ((Nat × String) × Stage2Output)))
    (os3 : Option (List ((Nat × String × String) × Stage3Output)))
    (os4 : Option (List ((Nat × String × String × String) × Stage4Output)))
    (idx : Nat) (c : String)
    (h : dlook idx s1 = none ∨
      ∃ r1, dlook idx s1 = some r1 ∧ r1.classifications = []) :
    (finalForComment s1 os2 os3 os4 idx c).classifications = [] := by
  unfold finalForComment
  rcases h with h | ⟨r1, h, hr⟩
  · rw [h]
  · rw [h]
    cases os2 with
    | none => simp [hr]
    | some s2 =>
        cases os3 with
        | none => simp [hr]
        | some s3 =>
            cases os4 with
            | none => simp [hr]
            | some s4 => simp [hr]

/-! ## Navigator lemmas -/

theorem getCategoryNode_eq_none (t : TaxNode) (c : String)
    (h : c ∉ getCategories t) : getCategoryNode t c = none := by
  unfold getCategoryNode categoryCache
  have key : ∀ (l : List TaxNode) (acc : List (String × TaxNode)),
      c ∉ l.map TaxNode.name → dlook c acc = none →
      dlook c (l.foldl (fun acc ch => dinsert ch.name ch acc) acc) = none := by
    intro l
    induction l with
    | nil => intro acc _ h2; exact h2
    | cons x xs ih =>
        intro acc h1 h2
        simp only [List.map_cons, List.mem_cons] at h1
        push_neg at h1
        refine ih _ h1.2 ?_
        rw [dlook_dinsert_ne _ _ (fun he => h1.1 he.symm)]
        exact h2
  exact key t.children [] h rfl

theorem getSubcategoryNode_eq_none (t : TaxNode) (c s : String)
    (h : s ∉ getSubcategories t c) : getSubcategoryNode t c s = none := by
  unfold getSubcategoryNode
  unfold getSubcategories at h
  cases hn : getCategoryNode t c with
  | none => rfl
  | some n =>
      rw [hn] at h
      apply List.find?_eq_none.mpr
      intro ch hch hbeq
      apply h
      have he : ch.name = s := by simpa using hbeq
      exact he ▸ List.mem_map_of_mem TaxNode.name hch

theorem getElementNode_eq_none (t : TaxNode) (c : String) (os : Option String)
    (e : String) (h : e ∉ getElements t c os) :
    getElementNode t c os e = none := by
  cases os with
  | none =>
      simp only [getElements] at h
      simp only [getElementNode]
      cases hn : getCategoryNode t c with
      | none => rfl
      | some n =>
          rw [hn] at h
          apply List.find?_eq_none.mpr
          intro ch hch hbeq
          apply h
          have he : ch.name = e := by simpa using hbeq
          exact he ▸ List.mem_map_of_mem TaxNode.name hch
  | some s =>
      simp only [getElements] at h
      simp only [getElementNode]
      cases hn : getSubcategoryNode t c s with
      | none => rfl
      | some n =>
          rw [hn] at h
          apply List.find?_eq_none.mpr
          intro ch hch hbeq
          apply h
          have he : ch.name = e := by simpa using hbeq
          exact he ▸ List.mem_map_of_mem TaxNode.name hch

/-! ## Usage monotonicity of a whole run -/

theorem classifyComments_usage_mono (env : ClassifierEnv) (u : YamlUsage)
    (c : List String) (m : Int) :
    usageLE u (classifyComments env u c m).1 := by
  by_cases hr : 1 ≤ m ∧ m ≤ 4
  · have hm : m = 1 ∨ m = 2 ∨ m = 3 ∨ m = 4 := by omega
    rcases hm with h | h | h | h <;> subst h
    · exact runStage1_usage env u c
    · show usageLE u
        (runStage2 env (runStage1 env u c).1 c (runStage1 env u c).2).1
      exact usageLE_trans (runStage1_usage env u c)
        (runStage2_usage env (runStage1 env u c).1 c (runStage1 env u c).2)
    · show usageLE u
        (runStage3 env
          (runStage2 env (runStage1 env u c).1 c (runStage1 env u c).2).1 c
          (runStage2 env (runStage1 env u c).1 c (runStage1 env u c).2).2).1
      exact usageLE_trans (runStage1_usage env u c)
        (usageLE_trans
          (runStage2_usage env (runStage1 env u c).1 c (runStage1 env u c).2)
          (runStage3_usage env _ c _))
    · show usageLE u
        (runStage4 env
          (runStage3 env
            (runStage2 env (runStage1 env u c).1 c (runStage1 env u c).2).1 c
            (runStage2 env (runStage1 env u c).1 c (runStage1 env u c).2).2).1
          c
          (runStage3 env
            (runStage2 env (runStage1 env u c).1 c (runStage1 env u c).2).1 c
            (runStage2 env (runStage1 env u c).1 c (runStage1 env u c).2).2).2).1
      exact usageLE_trans (runStage1_usage env u c)
        (usageLE_trans
          (runStage2_usage env (runStage1 env u c).1 c (runStage1 env u c).2)
          (usageLE_trans (runStage3_usage env _ c _) (runStage4_usage env _ c _)))
  · rw [classifyComments_invalid env u c m hr]
    exact usageLE_refl u

/-! ## Key uniqueness of the stage result maps -/

theorem stage1_map_keys_ge (l : List (Option Stage1Output)) :
    ∀ (n k : Nat), k ∈ dkeys ((enumFrom n l).filterMap
      (fun p => p.2.map (fun r => (p.1, r)))) → n ≤ k := by
  induction l with
  | nil => intro n k hk; simp [enumFrom, dkeys] at hk
  | cons a as ih =>
      intro n k hk
      cases a with
      | none =>
          rw [show (enumFrom n (none :: as)).filterMap
              (fun p => p.2.map (fun r => (p.1, r))) =
              (enumFrom (n + 1) as).filterMap
              (fun p => p.2.map (fun r => (p.1, r))) from rfl] at hk
          exact Nat.le_of_succ_le (ih (n + 1) k hk)
      | some r =>
          rw [show (enumFrom n (some r :: as)).filterMap
              (fun p => p.2.map (fun r => (p.1, r))) =
              (n, r) :: (enumFrom (n + 1) as).filterMap
              (fun p => p.2.map (fun r => (p.1, r))) from rfl] at hk
          rcases List.mem_cons.mp hk with h | h
          · omega
          · exact Nat.le_of_succ_le (ih (n + 1) k h)

theorem stage1_keys_nodup (l : List (Option Stage1Output)) :
    ∀ n, (dkeys ((enumFrom n l).filterMap
      (fun p => p.2.map (fun r => (p.1, r))))).Nodup := by
  induction l with
  | nil => intro n; simp [enumFrom, dkeys]
  | cons a as ih =>
      intro n
      cases a with
      | none =>
          rw [show (enumFrom n (none :: as)).filterMap
              (fun p => p.2.map (fun r => (p.1, r))) =
              (enumFrom (n + 1) as).filterMap
              (fun p => p.2.map (fun r => (p.1, r))) from rfl]
          exact ih (n + 1)
      | some r =>
          rw [show dkeys ((enumFrom n (some r :: as)).filterMap
              (fun p => p.2.map (fun r => (p.1, r)))) =
              n :: dkeys ((enumFrom (n + 1) as).filterMap
              (fun p => p.2.map (fun r => (p.1, r)))) from rfl]
          refine List.nodup_cons.mpr ⟨?_, ih (n + 1)⟩
          intro hmem
          have := stage1_map_keys_ge as (n + 1) n hmem
          omega

theorem runStage2Core_nodup (env : ClassifierEnv)
    (tasks : List (String × List (Nat × String × String))) :
    (dkeys (runStage2Core env tasks)).Nodup := by
  unfold runStage2Core
  refine foldl_invariant_mem (fun all => (dkeys all).Nodup) _ tasks ?_ []
    (by simp [dkeys])
  intro all e _ hall
  refine foldl_invariant_mem (fun all => (dkeys all).Nodup) _ _ ?_ all hall
  intro all2 pr _ hall2
  rcases pr with ⟨key, r?⟩
  cases r? with
  | none => exact hall2
  | some r => exact nodup_dkeys_dinsert key r hall2

theorem runStage3Core_nodup (env : ClassifierEnv)
    (tasks : List ((String × String) × List (Nat × String × String))) :
    (dkeys (runStage3Core env tasks)).Nodup := by
  unfold runStage3Core
  refine foldl_invariant_mem (fun all => (dkeys all).Nodup) _ tasks ?_ []
    (by simp [dkeys])
  intro all e _ hall
  refine foldl_invariant_mem (fun all => (dkeys all).Nodup) _ _ ?_ all hall
  intro all2 pr _ hall2
  rcases pr with ⟨key, r?⟩
  cases r? with
  | none => exact hall2
  | some r => exact nodup_dkeys_dinsert key r hall2

theorem runStage4Core_nodup (env : ClassifierEnv)
    (tasks : List ((String × String × String) × List (Nat × String × String))) :
    (dkeys (runStage4Core env tasks)).Nodup := by
  unfold runStage4Core
  refine foldl_invariant_mem (fun all => (dkeys all).Nodup) _ tasks ?_ []
    (by simp [dkeys])
  intro all e _ hall
  refine foldl_invariant_mem (fun all => (dkeys all).Nodup) _ _ ?_ all hall
  intro all2 pr _ hall2
  rcases pr with ⟨key, r?⟩
  cases r? with
  | none => exact hall2
  | some r => exact nodup_dkeys_dinsert key r hall2

/-! ## Skipped Stage-2 contexts never reach the result map -/

theorem not_mem_addTask_keys {K V : Type} [DecidableEq K] {c k : K} (t : V)
    (l : List (K × List V)) (hne : c ≠ k) (h : c ∉ l.map Prod.fst) :
    c ∉ (addTask k t l).map Prod.fst := by
  rw [addTask_keys]
  by_cases hm : k ∈ l.map Prod.fst
  · rw [if_pos hm]; exact h
  · rw [if_neg hm]
    intro hmem
    rcases List.mem_append.mp hmem with h1 | h1
    · exact h h1
    · exact hne (List.mem_singleton.mp h1)

theorem stage2Tasks_no_cat (env : ClassifierEnv) (comments : List String)
    (u : YamlUsage) (s1 : List (Nat × Stage1Output)) (cat : String)
    (hskip : ∀ c, env.loadStage2Prompt c cat = none) :
    cat ∉ (stage2Tasks env comments u s1).2.map Prod.fst := by
  unfold stage2Tasks
  refine foldl_invariant_mem
    (fun acc : YamlUsage × List (String × List (Nat × String × String)) =>
      cat ∉ acc.2.map Prod.fst) _ s1 ?_ (u, []) ?base
  case base => simp
  intro acc e _ hacc
  refine foldl_invariant_mem
    (fun acc : YamlUsage × List (String × List (Nat × String × String)) =>
      cat ∉ acc.2.map Prod.fst) _ e.2.classifications ?_ acc hacc
  intro acc2 cs _ hacc2
  unfold stage2SpanStep
  cases hp : env.loadStage2Prompt (comments.getD e.1 "") cs.category with
  | none => exact hacc2
  | some p =>
      have hne : cat ≠ cs.category := by
        intro he
        rw [← he, hskip _] at hp
        exact Option.noConfusion hp
      exact not_mem_addTask_keys _ _ hne hacc2

theorem runStage2Core_lookup_none (env : ClassifierEnv)
    (tasks : List (String × List (Nat × String × String)))
    (k : Nat × String) (hk : k.2 ∉ tasks.map Prod.fst) :
    dlook k (runStage2Core env tasks) = none := by
  unfold runStage2Core
  refine foldl_invariant_mem (fun all => dlook k all = none) _ tasks ?_ [] rfl
  intro all e he hall
  have hne : e.1 ≠ k.2 := by
    intro h
    exact hk (h ▸ List.mem_map_of_mem Prod.fst he)
  refine foldl_invariant_mem (fun all => dlook k all = none) _ _ ?_ all hall
  intro all2 pr hpr hall2
  rcases pr with ⟨key, r?⟩
  cases r? with
  | none => exact hall2
  | some r =>
      have hkey : key ∈ e.2.map (fun t => (t.1, e.1)) := (List.of_mem_zip hpr).1
      obtain ⟨t, ht, hkeq⟩ := List.mem_map.mp hkey
      have hne2 : key ≠ k := by
        intro hkk
        apply hne
        rw [← hkeq] at hkk
        exact congrArg Prod.snd hkk
      rw [dlook_dinsert_ne r all2 hne2]
      exact hall2

/-- A Stage-1 span survives assembly with its four fields intact whenever
the Stage-3 map was not passed (`max_stage` 1 or 2). -/
theorem finalForComment_span_preserved (s1 : List (Nat × Stage1Output))
    (os2 : Option (List ((Nat × String) × Stage2Output)))
    (i : Nat) (c : String) (r1 : Stage1Output) (cs : CategorySpan)
    (h1 : dlook i s1 = some r1) (hcs : cs ∈ r1.classifications) :
    ∃ rec ∈ (finalForComment s1 os2 none none i c).classifications,
      rec.category = some cs.category ∧
      rec.stage1_excerpt = some cs.excerpt ∧
      rec.stage1_reasoning = some cs.reasoning ∧
      rec.stage1_sentiment = some cs.sentiment := by
  unfold finalForComment
  rw [h1]
  cases os2 with
  | none =>
      exact ⟨span1Record cs, List.mem_map_of_mem _ hcs, rfl, rfl, rfl, rfl⟩
  | some s2 =>
      have hx : ∃ rec ∈ expandStage2 s2 i cs,
          rec.category = some cs.category ∧
          rec.stage1_excerpt = some cs.excerpt ∧
          rec.stage1_reasoning = some cs.reasoning ∧
          rec.stage1_sentiment = some cs.sentiment := by
        unfold expandStage2
        cases hl : dlook (i, cs.category) s2 with
        | none =>
            exact ⟨span1Record cs, List.mem_singleton_self _, rfl, rfl, rfl, rfl⟩
        | some r2 =>
            by_cases hr2 : r2.classifications = []
            · refine ⟨span1Record cs, ?_, rfl, rfl, rfl, rfl⟩
              show span1Record cs ∈
                (if r2.classifications = [] then [span1Record cs]
                 else r2.classifications.map (fun ss => span2Record cs ss))
              rw [if_pos hr2]
              exact List.mem_singleton_self _
            · obtain ⟨ss, hss⟩ := List.exists_mem_of_ne_nil r2.classifications hr2
              refine ⟨span2Record cs ss, ?_, rfl, rfl, rfl, rfl⟩
              show span2Record cs ss ∈
                (if r2.classifications = [] then [span1Record cs]
                 else r2.classifications.map (fun ss => span2Record cs ss))
              rw [if_neg hr2]
              exact List.mem_map_of_mem _ hss
      obtain ⟨rec, hrec, hf⟩ := hx
      exact ⟨rec, List.mem_flatMap.mpr ⟨cs, hcs, hrec⟩, hf⟩

/-! ## Claim theorems -/

/-- C1: for every environment, prior usage state, comment list of any
length and every `max_stage` in [1,4], `classify_comments` succeeds and
returns exactly one `FinalClassificationOutput` per input comment, in
input order, each carrying that comment's text as `original_comment` —
regardless of which stage results are absent, skipped, or unparseable
(the collaborators are arbitrary). -/
theorem c1_one_output_per_comment (env : ClassifierEnv) (u : YamlUsage)
    (comments : List String) (m : Int) (h1 : 1 ≤ m) (h2 : m ≤ 4) :
    ∃ outs, (classifyComments env u comments m).2 = .ok outs ∧
      outs.length = comments.length ∧
      outs.map FinalClassificationOutput.original_comment = comments := by
  obtain ⟨os2, os3, os4, heq⟩ := classifyComments_ok_shape env u comments m h1 h2
  exact ⟨_, heq, buildFinalOutput_length _ _ _ _ _,
    buildFinalOutput_map_original _ _ _ _ _⟩

/-- Witness for C1: a concrete two-comment run at `max_stage = 2`. -/
theorem c1_one_output_per_comment_witness :
    ∃ outs, (classifyComments cexEnv {} ["a", "b"] 2).2 = .ok outs ∧
      outs.length = (["a", "b"] : List String).length ∧
      outs.map FinalClassificationOutput.original_comment = ["a", "b"] :=
  c1_one_output_per_comment cexEnv {} ["a", "b"] 2 (by decide) (by decide)

/-- C4: `classify_comments` fails with the invalid-depth error exactly
when `max_stage` lies outside [1,4], and the check is eager: on failure
the usage-tracking state is returned unchanged and the result does not
depend on any collaborator (no prompt is loaded, no generation work is
dispatched). -/
theorem c4_invalid_depth_eager (env : ClassifierEnv) (u : YamlUsage)
    (comments : List String) (m : Int) :
    ((classifyComments env u comments m).2 = .error "max_stage must be 1-4" ↔
      ¬ (1 ≤ m ∧ m ≤ 4)) ∧
    (¬ (1 ≤ m ∧ m ≤ 4) →
      (classifyComments env u comments m).1 = u ∧
      ∀ env' : ClassifierEnv,
        classifyComments env' u comments m = classifyComments env u comments m) := by
  by_cases hr : 1 ≤ m ∧ m ≤ 4
  · refine ⟨⟨?_, fun hn => absurd hr hn⟩, fun hn => absurd hr hn⟩
    intro herr
    obtain ⟨os2, os3, os4, heq⟩ :=
      classifyComments_ok_shape env u comments m hr.1 hr.2
    rw [heq] at herr
    exact Except.noConfusion herr
  · constructor
    · rw [classifyComments_invalid env u comments m hr]
      simpa using hr
    · intro _
      rw [classifyComments_invalid env u comments m hr]
      exact ⟨rfl, fun env' => by
        rw [classifyComments_invalid env' u comments m hr]⟩

/-- Witness for C4: `max_stage = 5` fails eagerly with the state intact. -/
theorem c4_invalid_depth_eager_witness :
    (classifyComments cexEnv {} ["x"] 5).1 = ({} : YamlUsage) ∧
    (classifyComments cexEnv {} ["x"] 5).2 = .error "max_stage must be 1-4" := by
  have h := c4_invalid_depth_eager cexEnv {} ["x"] 5
  have hn : ¬ ((1 : Int) ≤ 5 ∧ (5 : Int) ≤ 4) := by decide
  exact ⟨(h.2 hn).1, h.1.mpr hn⟩

/-- C5: on every taxonomy, a query path containing a name unknown at any
level makes the navigator's lookups (`get_subcategories`, `get_elements`
in both its 3-level and 4-level form, `get_attributes`) return the empty
list — they never raise. -/
theorem c5_unknown_names_empty (t : TaxNode) (c s e : String) :
    (c ∉ getCategories t →
      getSubcategories t c = [] ∧ getElements t c none = [] ∧
      getElements t c (some s) = [] ∧ getAttributes t c none e = [] ∧
      getAttributes t c (some s) e = []) ∧
    (s ∉ getSubcategories t c →
      getElements t c (some s) = [] ∧ getAttributes t c (some s) e = []) ∧
    (e ∉ getElements t c none → getAttributes t c none e = []) ∧
    (e ∉ getElements t c (some s) → getAttributes t c (some s) e = []) := by
  refine ⟨?_, ?_, ?_, ?_⟩
  · intro hc
    have h0 : getCategoryNode t c = none := getCategoryNode_eq_none t c hc
    have h1 : getSubcategories t c = [] := by
      unfold getSubcategories; rw [h0]
    have h2 : getElements t c none = [] := by
      unfold getElements; rw [h0]
    have h3 : getElements t c (some s) = [] := by
      simp only [getElements]
      rw [getSubcategoryNode_eq_none t c s (by rw [h1]; exact List.not_mem_nil s)]
    have h4 : getAttributes t c none e = [] := by
      unfold getAttributes
      rw [getElementNode_eq_none t c none e (by rw [h2]; exact List.not_mem_nil e)]
    have h5 : getAttributes t c (some s) e = [] := by
      unfold getAttributes
      rw [getElementNode_eq_none t c (some s) e
        (by rw [h3]; exact List.not_mem_nil e)]
    exact ⟨h1, h2, h3, h4, h5⟩
  · intro hs
    have h0 : getSubcategoryNode t c s = none := getSubcategoryNode_eq_none t c s hs
    have h3 : getElements t c (some s) = [] := by
      simp only [getElements]; rw [h0]
    refine ⟨h3, ?_⟩
    unfold getAttributes
    rw [getElementNode_eq_none t c (some s) e (by rw [h3]; exact List.not_mem_nil e)]
  · intro he
    unfold getAttributes
    rw [getElementNode_eq_none t c none e he]
  · intro he
    unfold getAttributes
    rw [getElementNode_eq_none t c (some s) e he]

/-- Witness for C5: unknown names on the sample taxonomy all resolve to
empty child lists. -/
theorem c5_unknown_names_empty_witness :
    getSubcategories sampleTax "Nope" = [] ∧
    getElements sampleTax "Nope" none = [] ∧
    getElements sampleTax "Venue" (some "Nada") = [] ∧
    getAttributes sampleTax "Venue" (some "Hotel") "Nil" = [] := by
  have h1 := (c5_unknown_names_empty sampleTax "Nope" "Nada" "Nil").1 (by decide)
  have h2 := (c5_unknown_names_empty sampleTax "Venue" "Nada" "Nil").2.1 (by decide)
  have h3 := (c5_unknown_names_empty sampleTax "Venue" "Hotel" "Nil").2.2.2 (by decide)
  exact ⟨h1.1, h1.2.1, h2.1, h3⟩

/-- C6: the Stage-3 schema generated for `(C, S)` restricts the element
label to exactly `navigator.elements(C, S)` (degenerating to the single
sentinel `""` when that set is empty), and `validate_prediction(3, label,
(category := C, sub_category := S))` — a pure function — returns true iff
`label` is in `navigator.elements(C, S)`, in particular false for the
empty-string sentinel when the set is empty. -/
theorem c6_stage3_schema_and_validate (t : TaxNode) (c s label : String) :
    (getStage3Schema t c s).labelEnum =
      (if getElements t c (some s) = [] then [""]
       else getElements t c (some s)) ∧
    (validatePrediction t 3 label
        { category := some c, sub_category := some s } = true ↔
      label ∈ getElements t c (some s)) ∧
    (getElements t c (some s) = [] →
      validatePrediction t 3 ""
        { category := some c, sub_category := some s } = false) := by
  refine ⟨rfl, ?_, ?_⟩
  · unfold validatePrediction
    norm_num [getElementsOpt]
  · intro h
    unfold validatePrediction
    norm_num [getElementsOpt, h]

/-- Witness for C6: on the sample taxonomy, "Food" has no elements, so
the sentinel empty label validates to false. -/
theorem c6_stage3_schema_and_validate_witness :
    validatePrediction sampleTax 3 ""
      { category := some "Venue", sub_category := some "Food" } = false :=
  (c6_stage3_schema_and_validate sampleTax "Venue" "Food" "").2.2 (by decide)

/-- C7: for every `max_stage` in [1,4], a comment whose Stage-1 result is
absent from the stage-1 result map, or present with an explicitly empty
span list, yields a `FinalClassificationOutput` with an empty
classification list. -/
theorem c7_no_stage1_empty_output (env : ClassifierEnv) (u : YamlUsage)
    (comments : List String) (m : Int) (h1 : 1 ≤ m) (h2 : m ≤ 4)
    (i : Nat) (c : String) (hc : comments.get? i = some c)
    (habs : dlook i (runStage1 env u comments).2 = none ∨
      ∃ r1, dlook i (runStage1 env u comments).2 = some r1 ∧
        r1.classifications = []) :
    ∃ outs out, (classifyComments env u comments m).2 = .ok outs ∧
      outs.get? i = some out ∧ out.classifications = [] := by
  obtain ⟨os2, os3, os4, heq⟩ := classifyComments_ok_shape env u comments m h1 h2
  exact ⟨_, _, heq, buildFinalOutput_get? comments _ os2 os3 os4 i c hc,
    finalForComment_empty _ os2 os3 os4 i c habs⟩

/-- Witness for C7: an engine returning no Stage-1 result at all. -/
theorem c7_no_stage1_empty_output_witness :
    ∃ outs out, (classifyComments emptyEnv {} ["x"] 1).2 = .ok outs ∧
      outs.get? 0 = some out ∧ out.classifications = [] :=
  c7_no_stage1_empty_output emptyEnv {} ["x"] 1 (by decide) (by decide) 0 "x"
    rfl (Or.inl rfl)

/-- C9: `_label_to_filename` is a total deterministic pure function: on
every input string it yields a string ending in `".yaml"`, and equal
inputs give equal outputs. -/
theorem c9_label_to_filename_total (a b : String) :
    ".yaml".data <:+ (labelToFilename a).data ∧
    (a = b → labelToFilename a = labelToFilename b) := by
  constructor
  · unfold labelToFilename
    rw [String.data_append]
    exact List.suffix_append _ _
  · intro h
    rw [h]

/-- Witness for C9 at a concrete label. -/
theorem c9_label_to_filename_total_witness :
    ".yaml".data <:+ (labelToFilename "Food/Beverages").data ∧
    labelToFilename "Food/Beverages" = labelToFilename "Food/Beverages" :=
  ⟨(c9_label_to_filename_total "Food/Beverages" "Food/Beverages").1,
    (c9_label_to_filename_total "Food/Beverages" "Food/Beverages").2 rfl⟩

/-- C10: the usage-tracking state is never reset by `classify_comments`:
every run only extends the eight usage sets, so after a second call on
the same instance the reported sets contain the union of both runs (the
first run's entries are all retained), not just the most recent run's. -/
theorem c10_usage_accumulates (env env' : ClassifierEnv) (u : YamlUsage)
    (c c' : List String) (m m' : Int) :
    usageLE u (classifyComments env u c m).1 ∧
    usageLE (classifyComments env u c m).1
      (classifyComments env' (classifyComments env u c m).1 c' m').1 :=
  ⟨classifyComments_usage_mono env u c m,
    classifyComments_usage_mono env' (classifyComments env u c m).1 c' m'⟩

/-- Counterexample for C2: at `max_stage = 3`, a comment whose single
Stage-1 span's category context was skipped by the Prompt Provider (its
Stage-2 template is unavailable, so the Stage-2 map has no entry) yields
an output with NO record at all — the span's category, excerpt, reasoning
and sentiment appear in no output record, refuting the claim for
`max_stage` in [3,4]. -/
theorem c2_counterexample :
    (dlook 0 (runStage1 cexEnv {} ["hello"]).2 =
      some { classifications := [sampleSpan] }) ∧
    (classifyComments cexEnv {} ["hello"] 3).2 =
      .ok [{ original_comment := "hello", classifications := [] }] :=
  ⟨rfl, rfl⟩

/-- C2 (amended): for `max_stage` in [1,2], every Stage-1 span of every
comment yields at least one output record carrying that span's category,
excerpt, reasoning and sentiment unchanged, even when its Stage-2 result
is absent, skipped, or an empty span list.  (For `max_stage` in [3,4] the
assembler drops a Stage-1 span whose Stage-2 result is absent or empty,
as the counterexample shows.) -/
theorem c2_stage1_span_preserved (env : ClassifierEnv) (u : YamlUsage)
    (comments : List String) (m : Int) (hm : m = 1 ∨ m = 2)
    (i : Nat) (c : String) (hc : comments.get? i = some c)
    (r1 : Stage1Output) (cs : CategorySpan)
    (h1 : dlook i (runStage1 env u comments).2 = some r1)
    (hcs : cs ∈ r1.classifications) :
    ∃ outs out, (classifyComments env u comments m).2 = .ok outs ∧
      outs.get? i = some out ∧
      ∃ rec ∈ out.classifications,
        rec.category = some cs.category ∧
        rec.stage1_excerpt = some cs.excerpt ∧
        rec.stage1_reasoning = some cs.reasoning ∧
        rec.stage1_sentiment = some cs.sentiment := by
  obtain ⟨os2, heq⟩ := classifyComments_ok_shape12 env u comments m hm
  exact ⟨_, _, heq, buildFinalOutput_get? comments _ os2 none none i c hc,
    finalForComment_span_preserved _ os2 i c r1 cs h1 hcs⟩

/-- Witness for the amended C2 at a concrete skipped-context run. -/
theorem c2_stage1_span_preserved_witness :
    ∃ outs out, (classifyComments cexEnv {} ["hello"] 2).2 = .ok outs ∧
      outs.get? 0 = some out ∧
      ∃ rec ∈ out.classifications,
        rec.category = some sampleSpan.category ∧
        rec.stage1_excerpt = some sampleSpan.excerpt ∧
        rec.stage1_reasoning = some sampleSpan.reasoning ∧
        rec.stage1_sentiment = some sampleSpan.sentiment :=
  c2_stage1_span_preserved cexEnv {} ["hello"] 2 (Or.inr rfl) 0 "hello" rfl
    { classifications := [sampleSpan] } sampleSpan rfl
    (List.mem_singleton_self sampleSpan)

/-- Counterexample for C3: the claim fails for `max_stage = 3` (and 4).
With every Stage-2 template for category "Venue" unavailable, the comment
whose Stage-1 span carries "Venue" gets NO record at all at
`max_stage = 3` — not a record terminating at the category level. -/
theorem c3_counterexample :
    (∀ c, cexEnv.loadStage2Prompt c "Venue" = none) ∧
    sampleSpan.category = "Venue" ∧
    (dlook 0 (runStage1 cexEnv {} ["hello"]).2 =
      some { classifications := [sampleSpan] }) ∧
    (classifyComments cexEnv {} ["hello"] 3).2 =
      .ok [{ original_comment := "hello", classifications := [] }] :=
  ⟨fun _ => rfl, rfl, rfl, rfl⟩

/-- C3 (amended): at `max_stage = 2`, if the Prompt Provider reports a
category's Stage-2 context as not available (its loader returns `None`
for every comment), then every comment carrying a Stage-1 span with that
category yields, for that span, a record terminating at the category
level: category-level fields populated, and `sub_category`, `element`,
`attribute` and all stage-2/3/4 fields unset.  (For `max_stage` in [3,4]
such spans are dropped entirely, as the counterexample shows.) -/
theorem c3_skipped_category_terminates (env : ClassifierEnv) (u : YamlUsage)
    (comments : List String) (cat : String)
    (hskip : ∀ c, env.loadStage2Prompt c cat = none)
    (i : Nat) (c : String) (hc : comments.get? i = some c)
    (r1 : Stage1Output) (cs : CategorySpan)
    (h1 : dlook i (runStage1 env u comments).2 = some r1)
    (hcs : cs ∈ r1.classifications) (hcat : cs.category = cat) :
    ∃ outs out, (classifyComments env u comments 2).2 = .ok outs ∧
      outs.get? i = some out ∧
      ∃ rec ∈ out.classifications,
        rec.category = some cat ∧
        rec.stage1_excerpt = some cs.excerpt ∧
        rec.stage1_reasoning = some cs.reasoning ∧
        rec.stage1_sentiment = some cs.sentiment ∧
        rec.sub_category = none ∧ rec.stage2_excerpt = none ∧
        rec.stage2_reasoning = none ∧ rec.stage2_sentiment = none ∧
        rec.element = none ∧ rec.stage3_excerpt = none ∧
        rec.stage3_reasoning = none ∧ rec.stage3_sentiment = none ∧
        rec.attrLabel = none ∧ rec.stage4_excerpt = none ∧
        rec.stage4_reasoning = none ∧ rec.stage4_sentiment = none := by
  subst hcat
  have hnokey : dlook (i, cs.category)
      (runStage2 env (runStage1 env u comments).1 comments
        (runStage1 env u comments).2).2 = none := by
    show dlook (i, cs.category) (runStage2Core env
      (stage2Tasks env comments (runStage1 env u comments).1
        (runStage1 env u comments).2).2) = none
    exact runStage2Core_lookup_none env _ (i, cs.category)
      (stage2Tasks_no_cat env comments _ _ cs.category hskip)
  refine ⟨buildFinalOutput comments (runStage1 env u comments).2
      (some (runStage2 env (runStage1 env u comments).1 comments
        (runStage1 env u comments).2).2) none none,
    _, rfl, buildFinalOutput_get? comments _ _ none none i c hc, ?_⟩
  unfold finalForComment
  rw [h1]
  refine ⟨span1Record cs, ?_,
    rfl, rfl, rfl, rfl, rfl, rfl, rfl, rfl, rfl, rfl, rfl, rfl, rfl, rfl,
    rfl, rfl⟩
  apply List.mem_flatMap.mpr
  refine ⟨cs, hcs, ?_⟩
  unfold expandStage2
  rw [hnokey]
  exact List.mem_singleton_self _

/-- Witness for the amended C3 at a concrete skipped-context run. -/
theorem c3_skipped_category_terminates_witness :
    ∃ outs out, (classifyComments cexEnv {} ["hello"] 2).2 = .ok outs ∧
      outs.get? 0 = some out ∧
      ∃ rec ∈ out.classifications,
        rec.category = some "Venue" ∧
        rec.stage1_excerpt = some sampleSpan.excerpt ∧
        rec.stage1_reasoning = some sampleSpan.reasoning ∧
        rec.stage1_sentiment = some sampleSpan.sentiment ∧
        rec.sub_category = none ∧ rec.stage2_excerpt = none ∧
        rec.stage2_reasoning = none ∧ rec.stage2_sentiment = none ∧
        rec.element = none ∧ rec.stage3_excerpt = none ∧
        rec.stage3_reasoning = none ∧ rec.stage3_sentiment = none ∧
        rec.attrLabel = none ∧ rec.stage4_excerpt = none ∧
        rec.stage4_reasoning = none ∧ rec.stage4_sentiment = none :=
  c3_skipped_category_terminates cexEnv {} ["hello"] "Venue" (fun _ => rfl)
    0 "hello" rfl { classifications := [sampleSpan] } sampleSpan rfl
    (List.mem_singleton_self sampleSpan) rfl

/-- C8: every stage's result map built during one run has unique keys —
in particular the Stage-2 map holds at most one parsed result per
(comment index, category) pair even when a comment's Stage-1 output
repeats a category (each duplicate span becomes a separate task, and
inserting under the shared key overwrites: the later task's parsed result
wins, as the final conjunct about the dict insert states). -/
theorem c8_result_map_keys_unique (env : ClassifierEnv) (u : YamlUsage)
    (comments : List String) (s1 : List (Nat × Stage1Output))
    (s2 : List ((Nat × String) × Stage2Output))
    (s3 : List ((Nat × String × String) × Stage3Output))
    (l : List ((Nat × String) × Stage2Output)) (k : Nat × String)
    (v : Stage2Output) :
    (dkeys (runStage1 env u comments).2).Nodup ∧
    (dkeys (runStage2 env u comments s1).2).Nodup ∧
    (dkeys (runStage3 env u comments s2).2).Nodup ∧
    (dkeys (runStage4 env u comments s3).2).Nodup ∧
    dlook k (dinsert k v l) = some v := by
  refine ⟨?_, ?_, ?_, ?_, dlook_dinsert_self k v l⟩
  · show (dkeys ((enumFrom 0
        (env.proc1 (comments.map env.loadStage1Prompt))).filterMap
        (fun p => p.2.map (fun r => (p.1, r))))).Nodup
    exact stage1_keys_nodup _ 0
  · show (dkeys (runStage2Core env
      (stage2Tasks env comments u s1).2)).Nodup
    exact runStage2Core_nodup env _
  · show (dkeys (runStage3Core env
      (stage3Tasks env comments u s2).2)).Nodup
    exact runStage3Core_nodup env _
  · show (dkeys (runStage4Core env
      (stage4Tasks env comments u s3).2)).Nodup
    exact runStage4Core_nodup env _

end RAC
